import Mathlib

/-!
Shallow embedding of the tritium LSC measurement-aggregation core
(`src/analysis/tritium/lsc_measurements_mod.py`, `lsc_repeats.py`,
`helpers.py`).

Activities and standard deviations (pint quantities in Bq) are modelled as
real numbers.  Python exceptions are modelled by the `Err` inductive; a
mutating method that can raise is modelled as a function returning the
(possibly partially) mutated state together with an optional error and the
list of warnings it issued, mirroring the statement order of the Python
body.
-/

namespace Tritium

/-- Python exception sites, one constructor per distinct raise site /
exception class relevant to the embedded code. -/
inductive Err where
  /-- ValueError from `extract_info_from_label`: wrong token counts. -/
  | formatError
  /-- ValueError from tuple unpacking with the wrong number of parts. -/
  | unpackError
  /-- ValueError from `create_gas_streams`: label stream is neither IV nor OV. -/
  | streamLabelError
  /-- AssertionError from `create_gas_streams`: samples disagree on run number. -/
  | consistencyError
  /-- IndexError from `all_IV_samples[0]` on an empty IV group. -/
  | indexError
  /-- KeyError from the timestamp lookup, carrying stream and key. -/
  | keyError (stream : String) (key : String)
  /-- ValueError: background already substracted / not yet substracted. -/
  | stateError
  /-- TypeError from unpacking a bare scalar quantity as a pair. -/
  | typeError
  /-- AttributeError from reading `LSCRepeatSample.activity` when unset. -/
  | attributeError
deriving DecidableEq, Repr

/-- The `form` argument of `get_cumulative_activity`. -/
inductive Form where
  | total
  | soluble
  | insoluble
deriving DecidableEq, Repr

/-- Result of the LIBRASample activity getters: either a bare activity
(single counts) or an (activity, stdev) pair (repeated counts). -/
inductive ActResult where
  | bare (act : ℝ)
  | withStdev (act : ℝ) (stdev : ℝ)

/-- Result of `GasStream.get_cumulative_activity`: either a bare cumulative
series or a (cumulative series, stdev series) pair. -/
inductive CumResult where
  | bare (acts : List ℝ)
  | withStdevs (acts : List ℝ) (stdevs : List ℝ)

/-- Embeds `np.mean` over a list of scalars. -/
noncomputable def np_mean (xs : List ℝ) : ℝ := xs.sum / xs.length

/-- Embeds `np.std(xs, ddof=1)`: Bessel-corrected sample standard deviation. -/
noncomputable def np_std_ddof1 (xs : List ℝ) : ℝ :=
  Real.sqrt ((xs.map (fun x => (x - np_mean xs) ^ 2)).sum / ((xs.length : ℝ) - 1))

/-- Embeds `LSCSample.stdev_addition` / `lsc_repeats.stdev_addition`:
`np.sqrt(np.sum(std**2 for std in stdevs))`. -/
noncomputable def stdev_addition (stdevs : List ℝ) : ℝ :=
  Real.sqrt ((stdevs.map (fun s => s ^ 2)).sum)

/-- Running-sum accumulator underlying `np.cumsum`. -/
def cumsumAux (acc : ℝ) : List ℝ → List ℝ
  | [] => []
  | x :: xs => (acc + x) :: cumsumAux (acc + x) xs

/-- Embeds `Quantity.cumsum()`: prefix sums in input order. -/
def cumsum (xs : List ℝ) : List ℝ := cumsumAux 0 xs

/-- A mutating Python method call on state `α`: optional raised exception,
the state after the call (partially mutated when an exception escaped
mid-body), and the warnings issued. -/
structure MutStep (α : Type) where
  err : Option Err
  state : α
  warns : List String

/-- Embeds `LSCSample`: a single vial's measured activity (Bq values as reals). -/
structure LSCSample where
  name : String
  activity : ℝ
  stdev : ℝ
  repeated : Bool
  background_substracted : Bool
  origin_file : Option String

/-- Embeds `LSCSample.__init__` fed with the list of Bq counts for one vial:
`repeated` iff more than one count; repeated counts are averaged with a
Bessel-corrected stdev, a single count is stored as-is with stdev 0. -/
noncomputable def LSCSample.init (activity : List ℝ) (name : String) : LSCSample :=
  if 1 < activity.length then
    { name := name
      activity := np_mean activity
      stdev := np_std_ddof1 activity
      repeated := true
      background_substracted := false
      origin_file := none }
  else
    { name := name
      activity := activity.headD 0
      stdev := 0
      repeated := false
      background_substracted := false
      origin_file := none }

/-- Warning text issued when a background subtraction goes negative. -/
def negWarn (name : String) : String :=
  "Activity of " ++ name ++ " is negative after substracting background. Setting to zero."

/-- Embeds `LSCSample.substract_background`, statement by statement: guard on the
flag (raising before any mutation), subtract the background activity, clip
a negative result to zero with a warning, add the stdevs in quadrature,
set the flag last. -/
noncomputable def LSCSample.substract_background (s background_sample : LSCSample) :
    MutStep LSCSample :=
  if s.background_substracted then
    { err := some .stateError, state := s, warns := [] }
  else
    let s1 := { s with activity := s.activity - background_sample.activity }
    let clipped :=
      if s1.activity < 0 then
        ({ s1 with activity := 0 }, [negWarn s.name])
      else
        (s1, ([] : List String))
    let s2 := clipped.1
    let s3 := { s2 with stdev := stdev_addition [s2.stdev, background_sample.stdev] }
    { err := none
      state := { s3 with background_substracted := true }
      warns := clipped.2 }

/-- Embeds `LIBRASample`: 1–4 vials collected at one timestamp (times as naturals,
their value is irrelevant to the embedded claims). -/
structure LIBRASample where
  samples : List LSCSample
  time : ℕ

/-- Embeds `any(sample.repeated for sample in self.samples)`, the shared guard of
the three activity getters. -/
def LIBRASample.is_repeated (ls : LIBRASample) : Bool :=
  ls.samples.any (fun s => s.repeated)

/-- The accumulation loop shared by `get_soluble_activity` and
`get_insoluble_activity`: `act = 0; stdev = 0`, then for each vial
`act += sample.activity; stdev = stdev_addition([stdev, sample.stdev])`. -/
noncomputable def actStdevFold (vials : List LSCSample) : ℝ × ℝ :=
  vials.foldl (fun p s => (p.1 + s.activity, stdev_addition [p.2, s.stdev])) (0, 0)

/-- The (act, stdev) accumulator of `get_soluble_activity` (vials[:2]). -/
noncomputable def LIBRASample.soluble_pair (ls : LIBRASample) : ℝ × ℝ :=
  actStdevFold (ls.samples.take 2)

/-- The (act, stdev) accumulator of `get_insoluble_activity` (vials[2:]). -/
noncomputable def LIBRASample.insoluble_pair (ls : LIBRASample) : ℝ × ℝ :=
  actStdevFold (ls.samples.drop 2)

/-- The (act, stdev) values of `get_total_activity`: soluble + insoluble
activity, stdevs combined in quadrature.  (In the source the repeated
branch unpacks the soluble/insoluble results; both getters branch on the
same `is_repeated` predicate, so the unpacking always succeeds.) -/
noncomputable def LIBRASample.total_pair (ls : LIBRASample) : ℝ × ℝ :=
  (ls.soluble_pair.1 + ls.insoluble_pair.1,
    stdev_addition [ls.soluble_pair.2, ls.insoluble_pair.2])

/-- Embeds `LIBRASample.get_soluble_activity`. -/
noncomputable def LIBRASample.get_soluble_activity (ls : LIBRASample) : ActResult :=
  if ls.is_repeated then .withStdev ls.soluble_pair.1 ls.soluble_pair.2
  else .bare ls.soluble_pair.1

/-- Embeds `LIBRASample.get_insoluble_activity`. -/
noncomputable def LIBRASample.get_insoluble_activity (ls : LIBRASample) : ActResult :=
  if ls.is_repeated then .withStdev ls.insoluble_pair.1 ls.insoluble_pair.2
  else .bare ls.insoluble_pair.1

/-- Embeds `LIBRASample.get_total_activity`. -/
noncomputable def LIBRASample.get_total_activity (ls : LIBRASample) : ActResult :=
  if ls.is_repeated then .withStdev ls.total_pair.1 ls.total_pair.2
  else .bare ls.total_pair.1

/-- Dispatch on the `form` argument, as the `if form == ...` chains do. -/
noncomputable def LIBRASample.get_activity (ls : LIBRASample) (form : Form) : ActResult :=
  match form with
  | .total => ls.get_total_activity
  | .soluble => ls.get_soluble_activity
  | .insoluble => ls.get_insoluble_activity

/-- The (act, stdev) accumulator pair for a given `form`. -/
noncomputable def formPair (form : Form) (ls : LIBRASample) : ℝ × ℝ :=
  match form with
  | .total => ls.total_pair
  | .soluble => ls.soluble_pair
  | .insoluble => ls.insoluble_pair

/-- The vial loop of `LIBRASample.substract_background`: each vial is
mutated in order; an exception escaping from vial `i` leaves vials after
`i` untouched and the loop's partial mutations in place. -/
noncomputable def vialLoop (background_sample : LSCSample) :
    List LSCSample → MutStep (List LSCSample)
  | [] => { err := none, state := [], warns := [] }
  | v :: rest =>
    let r := v.substract_background background_sample
    match r.err with
    | some e => { err := some e, state := r.state :: rest, warns := r.warns }
    | none =>
      let rr := vialLoop background_sample rest
      { err := rr.err, state := r.state :: rr.state, warns := r.warns ++ rr.warns }

/-- Embeds `LIBRASample.substract_background`: substracts the background from each
vial in order. -/
noncomputable def LIBRASample.substract_background (ls : LIBRASample)
    (background_sample : LSCSample) : MutStep LIBRASample :=
  let r := vialLoop background_sample ls.samples
  { err := r.err, state := { ls with samples := r.state }, warns := r.warns }

/-- Embeds `GasStream`: an ordered list of LIBRA samples with a start time. -/
structure GasStream where
  samples : List LIBRASample
  start_time : ℕ
  name : Option String

/-- Embeds `GasStream.append_stdev`: append the first stdev as-is, thereafter
append the quadrature combination of the last list entry with the new
value. -/
noncomputable def GasStream.append_stdev (stdev_list : List ℝ) (stdev_val : ℝ) : List ℝ :=
  match stdev_list.getLast? with
  | none => [stdev_val]
  | some last => stdev_list ++ [stdev_addition [last, stdev_val]]

/-- Stream-wide repeatedness check of `get_cumulative_activity`:
`any(lsc_sample.repeated for sample in self.samples for lsc_sample in
sample.samples)`. -/
def GasStream.is_repeated (gs : GasStream) : Bool :=
  gs.samples.any (fun ls => ls.samples.any (fun v => v.repeated))

/-- The repeated-counts loop of `get_cumulative_activity`: for each LIBRA
sample, unpack `act, stdev = get_..._activity()` (a bare scalar raises
TypeError), collect the activities and chain the stdevs with
`append_stdev`. -/
noncomputable def repeatedLoop (form : Form) (acc : List ℝ × List ℝ) :
    List LIBRASample → Except Err (List ℝ × List ℝ)
  | [] => .ok acc
  | ls :: rest =>
    match ls.get_activity form with
    | .withStdev a s =>
      repeatedLoop form (acc.1 ++ [a], GasStream.append_stdev acc.2 s) rest
    | .bare _ => .error .typeError

/-- The single-counts loop of `get_cumulative_activity` followed by
`Quantity.from_list`: collecting a tuple where a scalar is expected would
fail, a list of bare scalars is returned as-is. -/
noncomputable def fromListBare (rs : List ActResult) : Except Err (List ℝ) :=
  rs.mapM (fun r =>
    match r with
    | .bare a => .ok a
    | .withStdev _ _ => .error .typeError)

/-- Embeds `GasStream.get_cumulative_activity`: raises unless every vial of every
sample has the background substracted, then follows the repeated or the
single-count branch; the activity list is prefix-summed at the end, the
stdev list is already cumulative via `append_stdev`. -/
noncomputable def GasStream.get_cumulative_activity (gs : GasStream) (form : Form) :
    Except Err CumResult :=
  if gs.samples.any (fun ls => ls.samples.any (fun v => !v.background_substracted)) then
    .error .stateError
  else if gs.is_repeated then
    match repeatedLoop form ([], []) gs.samples with
    | .error e => .error e
    | .ok p => .ok (.withStdevs (cumsum p.1) p.2)
  else
    match fromListBare (gs.samples.map (fun ls => ls.get_activity form)) with
    | .error e => .error e
    | .ok acts => .ok (.bare (cumsum acts))

/-- Embeds `LSCRepeatSample` (`lsc_repeats.py`): per-vial repeated counts with
mean and Bessel-corrected stdev.  `activity` models the attribute of the
same name that the source only ever assigns inside the negative-clip
branch of `substract_background` (`none` = attribute absent). -/
structure LSCRepeatSample where
  name : String
  counted_activities : List ℝ
  rep_number : ℕ
  avg_activity : ℝ
  stdev_activity : ℝ
  activity : Option ℝ
  background_substracted : Bool
  origin_file : Option String

/-- Embeds `LSCRepeatSample.__init__` + `_perform_statistics`. -/
noncomputable def LSCRepeatSample.ofCounts (name : String)
    (counted_activities : List ℝ) : LSCRepeatSample :=
  { name := name
    counted_activities := counted_activities
    rep_number := counted_activities.length
    avg_activity := np_mean counted_activities
    stdev_activity :=
      if 1 < counted_activities.length then np_std_ddof1 counted_activities else 0
    activity := none
    background_substracted := false
    origin_file := none }

/-- Embeds `LSCRepeatSample.substract_background`: like the single-count variant,
except that the negative-clip branch assigns the (otherwise unset)
`activity` attribute instead of `avg_activity`. -/
noncomputable def LSCRepeatSample.substract_background
    (s background_sample : LSCRepeatSample) : MutStep LSCRepeatSample :=
  if s.background_substracted then
    { err := some .stateError, state := s, warns := [] }
  else
    let s1 := { s with avg_activity := s.avg_activity - background_sample.avg_activity }
    let clipped :=
      if s1.avg_activity < 0 then
        ({ s1 with activity := some 0 }, [negWarn s.name])
      else
        (s1, ([] : List String))
    let s2 := clipped.1
    let s3 := { s2 with
      stdev_activity := stdev_addition [s2.stdev_activity, background_sample.stdev_activity] }
    { err := none
      state := { s3 with background_substracted := true }
      warns := clipped.2 }

/-- Embeds `LIBRARepeatSample`: composite of repeated-count vials. -/
structure LIBRARepeatSample where
  samples : List LSCRepeatSample
  time : ℕ

/-- The `act += sample.activity` loop of the `LIBRARepeatSample` getters;
reading the `activity` attribute raises AttributeError when it was never
assigned. -/
noncomputable def repeatActSum (vials : List LSCRepeatSample) : Except Err ℝ :=
  vials.foldlM (fun acc s =>
    match s.activity with
    | none => .error .attributeError
    | some a => .ok (acc + a)) 0

/-- Embeds `LIBRARepeatSample.get_soluble_activity`. -/
noncomputable def LIBRARepeatSample.get_soluble_activity (ls : LIBRARepeatSample) :
    Except Err ℝ :=
  repeatActSum (ls.samples.take 2)

/-- Embeds `LIBRARepeatSample.get_insoluble_activity`. -/
noncomputable def LIBRARepeatSample.get_insoluble_activity (ls : LIBRARepeatSample) :
    Except Err ℝ :=
  repeatActSum (ls.samples.drop 2)

/-- Embeds `LIBRARepeatSample.get_total_activity`. -/
noncomputable def LIBRARepeatSample.get_total_activity (ls : LIBRARepeatSample) :
    Except Err ℝ := do
  let s ← ls.get_soluble_activity
  let i ← ls.get_insoluble_activity
  return s + i

/-- Embeds `RepeatGasStream`. -/
structure RepeatGasStream where
  samples : List LIBRARepeatSample
  start_time : ℕ
  name : Option String

/-- Embeds `RepeatGasStream.get_cumulative_activity`: the same up-front
background-substraction check, then one activity per LIBRA sample,
prefix-summed. -/
noncomputable def RepeatGasStream.get_cumulative_activity (gs : RepeatGasStream)
    (form : Form) : Except Err (List ℝ) :=
  if gs.samples.any (fun ls => ls.samples.any (fun v => !v.background_substracted)) then
    .error .stateError
  else do
    let acts ← gs.samples.mapM (fun ls =>
      match form with
      | .total => ls.get_total_activity
      | .soluble => ls.get_soluble_activity
      | .insoluble => ls.get_insoluble_activity)
    return cumsum acts

/-- Helper for `pySplit`: `acc` holds the characters of the current token
in reverse. -/
def pySplitAux (sep : Char) : List Char → List Char → List String
  | [], acc => [String.mk acc.reverse]
  | c :: cs, acc =>
    if c = sep then String.mk acc.reverse :: pySplitAux sep cs []
    else pySplitAux sep cs (c :: acc)

/-- Python `str.split(sep)` for a one-character separator (the only kind
the source uses): `"ab".split("-") = ["ab"]`, `"a-".split("-") = ["a",""]`,
`"".split("-") = [""]`. -/
def pySplit (sep : Char) (s : String) : List String :=
  pySplitAux sep s.toList []

/-- The parse result of `extract_info_from_label`. -/
structure LabelInfo where
  volume : String
  stream : String
  run_nb : String
  sample_nb : String
  vial_nb : String
deriving DecidableEq, Repr

/-- Embeds `helpers.extract_info_from_label`: raise unless the label splits into
exactly 4 hyphen-parts and 2 underscore-parts, then unpack
`volume-stream` and `run-sample-vial`. -/
def extract_info_from_label (label : String) : Except Err LabelInfo :=
  if (pySplit '-' label).length = 4 ∧ (pySplit '_' label).length = 2 then
    match pySplit '_' label with
    | [volume_stream, run_sample_vial] =>
      match pySplit '-' volume_stream, pySplit '-' run_sample_vial with
      | [volume, stream], [run_nb, sample_nb, vial_nb] =>
        .ok { volume := volume, stream := stream, run_nb := run_nb,
              sample_nb := sample_nb, vial_nb := vial_nb }
      | _, _ => .error .unpackError
    | _ => .error .unpackError
  else
    .error .formatError

/-- The IV/OV partition loop of `create_gas_streams`, with the running
accumulator pair (IV list, OV list): parse each label (the first
FormatError propagates) and dispatch on the stream field, raising on
anything other than IV or OV. -/
def partitionGo (acc : List LSCSample × List LSCSample) :
    List LSCSample → Except Err (List LSCSample × List LSCSample)
  | [] => .ok acc
  | s :: rest =>
    match extract_info_from_label s.name with
    | .error e => .error e
    | .ok info =>
      if info.stream = "IV" then
        partitionGo (acc.1 ++ [s], acc.2) rest
      else if info.stream = "OV" then
        partitionGo (acc.1, acc.2 ++ [s]) rest
      else
        .error .streamLabelError

/-- The partition loop started on empty accumulators. -/
def partitionStreams (samples : List LSCSample) :
    Except Err (List LSCSample × List LSCSample) :=
  partitionGo ([], []) samples

/-- Insertion into a Python-dict-of-lists (insertion order preserved). -/
def insertGroup (acc : List (String × List LSCSample)) (key : String) (s : LSCSample) :
    List (String × List LSCSample) :=
  match acc with
  | [] => [(key, [s])]
  | (k, vs) :: rest =>
    if k = key then (k, vs ++ [s]) :: rest else (k, vs) :: insertGroup rest key s

/-- The per-stream grouping loop of `create_gas_streams`, with the running
ordered-dict accumulator: group samples by the `sample_nb` of their label,
first-seen order. -/
def groupGo (acc : List (String × List LSCSample)) :
    List LSCSample → Except Err (List (String × List LSCSample))
  | [] => .ok acc
  | s :: rest =>
    match extract_info_from_label s.name with
    | .error e => .error e
    | .ok info => groupGo (insertGroup acc info.sample_nb s) rest

/-- The grouping loop started on the empty dict. -/
def groupBySampleNb (samples : List LSCSample) :
    Except Err (List (String × List LSCSample)) :=
  groupGo [] samples

/-- The timestamp table `general_data["timestamps"]["lsc_sample_times"]`:
stream name and key to an (already parsed) time; a missing key is a
KeyError. -/
structure GeneralData where
  lsc_sample_times : String → String → Option ℕ

/-- Build the LIBRA samples of one stream group: look the timestamp of
each `(run_nb, sample_nb)` key up and attach it to the grouped vials. -/
def buildLibraSamples (gd : GeneralData) (stream_key : String) (run_nb : String) :
    List (String × List LSCSample) → Except Err (List LIBRASample)
  | [] => .ok []
  | g :: rest =>
    match gd.lsc_sample_times stream_key (run_nb ++ "-" ++ g.1 ++ "-x") with
    | none => .error (.keyError stream_key (run_nb ++ "-" ++ g.1 ++ "-x"))
    | some t =>
      match buildLibraSamples gd stream_key run_nb rest with
      | .error e => .error e
      | .ok ls => .ok ({ samples := g.2, time := t } :: ls)

/-- The generator `extract_info_from_label(sample.name) for sample in
all_IV_samples` consumed by the run-number assertion: parse every label in
order, the first failure propagating. -/
def parseAll : List LSCSample → Except Err (List LabelInfo)
  | [] => .ok []
  | s :: rest =>
    match extract_info_from_label s.name with
    | .error e => .error e
    | .ok i =>
      match parseAll rest with
      | .error e => .error e
      | .ok is => .ok (i :: is)

/-- Embeds `helpers.create_gas_streams`: partition by stream, take the run number
from the first IV sample (IndexError on an empty IV group), assert that
all IV samples share it, group each stream by sample number, look up the
timestamps (both streams keyed with the IV run number) and build the two
gas streams. -/
def create_gas_streams (samples : List LSCSample) (start_time : ℕ)
    (general_data : GeneralData) : Except Err (GasStream × GasStream) := do
  let parts ← partitionStreams samples
  let all_IV_samples := parts.1
  let all_OV_samples := parts.2
  match all_IV_samples with
  | [] => .error .indexError
  | first :: _ => do
    let firstInfo ← extract_info_from_label first.name
    let run_nb := firstInfo.run_nb
    let infos ← parseAll all_IV_samples
    if infos.all (fun i => i.run_nb = run_nb) then do
      let ivGroups ← groupBySampleNb all_IV_samples
      let ovGroups ← groupBySampleNb all_OV_samples
      let ivLibra ← buildLibraSamples general_data "IV" run_nb ivGroups
      let ovLibra ← buildLibraSamples general_data "OV" run_nb ovGroups
      return ({ samples := ivLibra, start_time := start_time, name := none },
              { samples := ovLibra, start_time := start_time, name := none })
    else
      .error .consistencyError

/-! ### Helper lemmas -/

theorem stdev_addition_pair (a b : ℝ) :
    stdev_addition [a, b] = Real.sqrt (a ^ 2 + b ^ 2) := by
  simp [stdev_addition]

theorem stdev_addition_nonneg (l : List ℝ) : 0 ≤ stdev_addition l :=
  Real.sqrt_nonneg _

theorem cumsumAux_length (xs : List ℝ) : ∀ acc, (cumsumAux acc xs).length = xs.length := by
  induction xs with
  | nil => intro acc; rfl
  | cons x xs ih => intro acc; simp [cumsumAux, ih]

theorem cumsumAux_getD (xs : List ℝ) :
    ∀ acc k, k < xs.length →
      (cumsumAux acc xs).getD k 0 = acc + ((xs.take (k + 1)).sum) := by
  induction xs with
  | nil => intro acc k hk; simp at hk
  | cons x xs ih =>
    intro acc k hk
    cases k with
    | zero => simp [cumsumAux]
    | succ k =>
      have hk' : k < xs.length := by simpa using hk
      simp only [cumsumAux, List.getD_cons_succ, List.take_succ_cons, List.sum_cons]
      rw [ih (acc + x) k hk']
      ring

theorem cumsum_length (xs : List ℝ) : (cumsum xs).length = xs.length :=
  cumsumAux_length xs 0

theorem cumsum_getD (xs : List ℝ) (k : ℕ) (hk : k < xs.length) :
    (cumsum xs).getD k 0 = (xs.take (k + 1)).sum := by
  simpa using cumsumAux_getD xs 0 k hk

theorem actStdevFold_loop (vs : List LSCSample) :
    ∀ (a s : ℝ), 0 ≤ s →
      vs.foldl (fun p v => (p.1 + v.activity, stdev_addition [p.2, v.stdev])) (a, s) =
        (a + (vs.map (fun v => v.activity)).sum,
          Real.sqrt (s ^ 2 + (vs.map (fun v => v.stdev ^ 2)).sum)) := by
  induction vs with
  | nil =>
    intro a s hs
    simp [Real.sqrt_sq hs]
  | cons v vs ih =>
    intro a s hs
    simp only [List.foldl_cons, List.map_cons, List.sum_cons]
    rw [ih (a + v.activity) (stdev_addition [s, v.stdev]) (stdev_addition_nonneg _)]
    refine Prod.ext ?_ ?_
    · simp [add_assoc]
    · simp only [stdev_addition_pair]
      rw [Real.sq_sqrt (by positivity), add_assoc]

theorem actStdevFold_eq (vs : List LSCSample) :
    actStdevFold vs =
      ((vs.map (fun v => v.activity)).sum,
        Real.sqrt ((vs.map (fun v => v.stdev ^ 2)).sum)) := by
  have h := actStdevFold_loop vs 0 0 le_rfl
  simpa [actStdevFold] using h

theorem actStdevFold_snd_nonneg (vs : List LSCSample) : 0 ≤ (actStdevFold vs).2 := by
  rw [actStdevFold_eq]
  exact Real.sqrt_nonneg _

theorem sum_map_sq_nonneg {α : Type} (l : List α) (f : α → ℝ) :
    0 ≤ (l.map (fun a => f a ^ 2)).sum :=
  List.sum_nonneg (fun x hx => by
    obtain ⟨v, _, rfl⟩ := List.mem_map.mp hx
    positivity)

theorem soluble_pair_eq (ls : LIBRASample) :
    ls.soluble_pair =
      (((ls.samples.take 2).map (fun v => v.activity)).sum,
        Real.sqrt (((ls.samples.take 2).map (fun v => v.stdev ^ 2)).sum)) :=
  actStdevFold_eq _

theorem insoluble_pair_eq (ls : LIBRASample) :
    ls.insoluble_pair =
      (((ls.samples.drop 2).map (fun v => v.activity)).sum,
        Real.sqrt (((ls.samples.drop 2).map (fun v => v.stdev ^ 2)).sum)) :=
  actStdevFold_eq _

theorem total_pair_eq (ls : LIBRASample) :
    ls.total_pair =
      ((ls.samples.map (fun v => v.activity)).sum,
        Real.sqrt ((ls.samples.map (fun v => v.stdev ^ 2)).sum)) := by
  have hsplit : ls.samples.take 2 ++ ls.samples.drop 2 = ls.samples :=
    List.take_append_drop 2 ls.samples
  refine Prod.ext ?_ ?_
  · show ls.soluble_pair.1 + ls.insoluble_pair.1 = _
    rw [soluble_pair_eq, insoluble_pair_eq, ← hsplit]
    simp
  · show stdev_addition [ls.soluble_pair.2, ls.insoluble_pair.2] = _
    rw [soluble_pair_eq, insoluble_pair_eq, stdev_addition_pair]
    rw [Real.sq_sqrt (sum_map_sq_nonneg _ _), Real.sq_sqrt (sum_map_sq_nonneg _ _)]
    rw [← List.sum_append, ← List.map_append, hsplit]

theorem formPair_snd_nonneg (form : Form) (ls : LIBRASample) :
    0 ≤ (formPair form ls).2 := by
  cases form with
  | total =>
    show 0 ≤ stdev_addition _
    exact stdev_addition_nonneg _
  | soluble => exact actStdevFold_snd_nonneg _
  | insoluble => exact actStdevFold_snd_nonneg _

/-- The three getters all have the shape `if is_repeated then tuple else
bare`, over the corresponding accumulator pair. -/
theorem get_activity_eq (ls : LIBRASample) (form : Form) :
    ls.get_activity form =
      if ls.is_repeated then
        ActResult.withStdev (formPair form ls).1 (formPair form ls).2
      else
        ActResult.bare (formPair form ls).1 := by
  cases form <;> rfl

theorem append_stdev_nil (x : ℝ) : GasStream.append_stdev [] x = [x] := rfl

theorem append_stdev_ne_nil (l : List ℝ) (x last : ℝ) (h : l.getLast? = some last) :
    GasStream.append_stdev l x = l ++ [stdev_addition [last, x]] := by
  simp [GasStream.append_stdev, h]

theorem getLast?_eq_getD (l : List ℝ) (h : l ≠ []) :
    l.getLast? = some (l.getD (l.length - 1) 0) := by
  have hpos : 0 < l.length := List.length_pos.mpr h
  rw [List.getLast?_eq_getLast_of_ne_nil h, List.getLast_eq_getElem,
    List.getD_eq_getElem l 0 (by omega)]

/-- The stdev list built by iterating `append_stdev` over `us` (all
nonnegative) has one entry per input, the k-th being the quadrature sum of
the first k+1 inputs. -/
theorem appendChain_spec (us : List ℝ) (h : ∀ u ∈ us, 0 ≤ u) :
    (us.foldl GasStream.append_stdev []).length = us.length ∧
      ∀ k, k < us.length →
        (us.foldl GasStream.append_stdev []).getD k 0 =
          Real.sqrt (((us.take (k + 1)).map (fun u => u ^ 2)).sum) := by
  induction us using List.reverseRecOn with
  | nil => exact ⟨rfl, by intro k hk; simp at hk⟩
  | append_singleton us u ih =>
    have hus : ∀ v ∈ us, 0 ≤ v := fun v hv => h v (List.mem_append_left _ hv)
    have hu : 0 ≤ u := h u (List.mem_append_right _ (List.mem_singleton_self u))
    obtain ⟨ihlen, ihget⟩ := ih hus
    rw [List.foldl_append]
    simp only [List.foldl_cons, List.foldl_nil]
    by_cases hne : us = []
    · subst hne
      refine ⟨rfl, ?_⟩
      intro k hk
      have hk0 : k = 0 := by simp at hk; omega
      subst hk0
      rw [show ([] : List ℝ).foldl GasStream.append_stdev [] = [] from rfl,
        append_stdev_nil]
      simp [Real.sqrt_sq hu]
    · have hpos : 0 < us.length := List.length_pos.mpr hne
      have hcne : us.foldl GasStream.append_stdev [] ≠ [] := by
        intro hc
        rw [← List.length_eq_zero, ihlen, List.length_eq_zero] at hc
        exact hne hc
      have hlast := getLast?_eq_getD _ hcne
      rw [ihlen] at hlast
      have hlen1 : us.length - 1 < us.length := Nat.sub_lt hpos one_pos
      rw [ihget (us.length - 1) hlen1] at hlast
      have htake : us.take (us.length - 1 + 1) = us := by
        rw [Nat.sub_add_cancel hpos]
        exact List.take_length us
      rw [htake] at hlast
      rw [append_stdev_ne_nil _ u _ hlast]
      constructor
      · simp [ihlen]
      · intro k hk
        rcases Nat.lt_or_ge k us.length with hk' | hk'
        · rw [List.getD_append _ _ _ _ (by rw [ihlen]; exact hk'), ihget k hk',
            List.take_append_of_le_length (by omega)]
        · have hkeq : k = us.length := by simp at hk; omega
          subst hkeq
          rw [List.getD_append_right _ _ _ _ (by rw [ihlen])]
          simp only [ihlen, Nat.sub_self, List.getD_cons_zero]
          rw [stdev_addition_pair, Real.sq_sqrt (sum_map_sq_nonneg us (fun u => u))]
          rw [List.take_of_length_le (by simp), List.map_append, List.sum_append]
          simp

/-- When every LIBRA sample of the list has a repeated vial, the repeated
loop succeeds, collecting the per-sample activities and chaining the
per-sample stdevs with `append_stdev`. -/
theorem repeatedLoop_ok (form : Form) (samples : List LIBRASample)
    (h : ∀ ls ∈ samples, ls.is_repeated = true) :
    ∀ acc, repeatedLoop form acc samples =
      .ok (acc.1 ++ samples.map (fun ls => (formPair form ls).1),
        (samples.map (fun ls => (formPair form ls).2)).foldl GasStream.append_stdev acc.2) := by
  induction samples with
  | nil => intro acc; simp [repeatedLoop]
  | cons ls rest ih =>
    intro acc
    have hrep : ls.is_repeated = true := h ls (List.mem_cons_self ls rest)
    have hrest : ∀ l ∈ rest, l.is_repeated = true :=
      fun l hl => h l (List.mem_cons_of_mem _ hl)
    rw [repeatedLoop, get_activity_eq, hrep]
    simp only [if_true]
    rw [ih hrest]
    simp

/-- If some LIBRA sample of the list has no repeated vial, the repeated
loop raises the unpacking TypeError. -/
theorem repeatedLoop_bare (form : Form) (samples : List LIBRASample)
    (h : ∃ ls ∈ samples, ls.is_repeated = false) :
    ∀ acc, repeatedLoop form acc samples = .error .typeError := by
  induction samples with
  | nil => obtain ⟨ls, hmem, _⟩ := h; simp at hmem
  | cons ls rest ih =>
    intro acc
    rw [repeatedLoop, get_activity_eq]
    by_cases hrep : ls.is_repeated
    · rw [hrep]
      simp only [if_true]
      obtain ⟨l, hmem, hl⟩ := h
      rcases List.mem_cons.mp hmem with rfl | hmem'
      · rw [hrep] at hl; cases hl
      · exact ih ⟨l, hmem', hl⟩ _
    · simp [hrep]

/-- Composite-level repeatedness from a repeated member vial. -/
theorem is_repeated_of_mem (ls : LIBRASample) (h : ∃ v ∈ ls.samples, v.repeated = true) :
    ls.is_repeated = true := by
  obtain ⟨v, hv, hvr⟩ := h
  exact List.any_eq_true.mpr ⟨v, hv, hvr⟩

/-- C1: for every GasStream whose composite samples all have background
subtracted and all contain at least one repeated vial,
`get_cumulative_activity form` returns one (value, stdev) pair per
composite sample in input order: the k-th value is the prefix sum of the
first k+1 per-sample activities for the requested form and the k-th stdev
is the quadrature sum `sqrt(u_0^2 + ... + u_k^2)` of the first k+1
per-sample stdevs — the iterated two-term combination of `append_stdev`
collapses to the full quadrature sum. -/
theorem c1_cumulative_activity_spec (gs : GasStream) (form : Form)
    (hne : gs.samples ≠ [])
    (hbg : ∀ ls ∈ gs.samples, ∀ v ∈ ls.samples, v.background_substracted = true)
    (hrep : ∀ ls ∈ gs.samples, ∃ v ∈ ls.samples, v.repeated = true) :
    ∃ acts stdevs,
      gs.get_cumulative_activity form = .ok (.withStdevs acts stdevs) ∧
      acts.length = gs.samples.length ∧
      stdevs.length = gs.samples.length ∧
      ∀ k, k < gs.samples.length →
        acts.getD k 0 =
          ((gs.samples.take (k + 1)).map (fun ls => (formPair form ls).1)).sum ∧
        stdevs.getD k 0 =
          Real.sqrt (((gs.samples.take (k + 1)).map (fun ls => (formPair form ls).2 ^ 2)).sum) := by
  have hck : gs.samples.any (fun ls => ls.samples.any (fun v => !v.background_substracted))
      = false := by
    rw [List.any_eq_false]
    intro ls hls h
    obtain ⟨v, hv, hb⟩ := List.any_eq_true.mp h
    rw [hbg ls hls v hv] at hb
    simp at hb
  have hlsrep : ∀ ls ∈ gs.samples, ls.is_repeated = true :=
    fun ls hls => is_repeated_of_mem ls (hrep ls hls)
  have hgsrep : gs.is_repeated = true := by
    obtain ⟨ls0, rest, hcons⟩ := List.exists_cons_of_ne_nil hne
    refine List.any_eq_true.mpr ⟨ls0, by rw [hcons]; exact List.mem_cons_self _ _, ?_⟩
    exact hlsrep ls0 (by rw [hcons]; exact List.mem_cons_self _ _)
  have hloop := repeatedLoop_ok form gs.samples hlsrep ([], [])
  rw [GasStream.get_cumulative_activity, hck]
  simp only [Bool.false_eq_true, if_false, hgsrep, if_true, hloop]
  set us := gs.samples.map (fun ls => (formPair form ls).2) with hus
  have husnn : ∀ u ∈ us, 0 ≤ u := by
    intro u hu
    obtain ⟨ls, _, rfl⟩ := List.mem_map.mp hu
    exact formPair_snd_nonneg form ls
  obtain ⟨hclen, hcget⟩ := appendChain_spec us husnn
  refine ⟨_, _, rfl, ?_, ?_, ?_⟩
  · simp [cumsum_length]
  · rw [hclen, hus, List.length_map]
  · intro k hk
    constructor
    · rw [List.nil_append, cumsum_getD _ k (by simpa using hk), ← List.map_take]
    · rw [hcget k (by rw [hus, List.length_map]; exact hk), hus, ← List.map_take,
        List.map_map]
      rfl

/-- Witness vial: repeated, background already substracted. -/
noncomputable def vialRep (nm : String) (a s : ℝ) : LSCSample :=
  { name := nm, activity := a, stdev := s, repeated := true,
    background_substracted := true, origin_file := none }

/-- Witness stream for C1: two composite samples of one repeated vial each. -/
noncomputable def gsC1 : GasStream :=
  { samples := [{ samples := [vialRep "a" 5 1], time := 0 },
                { samples := [vialRep "b" 7 2], time := 1 }],
    start_time := 0, name := none }

theorem c1_cumulative_activity_spec_witness :
    gsC1.samples ≠ [] ∧
      ∃ acts stdevs,
        gsC1.get_cumulative_activity Form.total = .ok (.withStdevs acts stdevs) ∧
        acts.length = 2 ∧ stdevs.length = 2 := by
  have h := c1_cumulative_activity_spec gsC1 Form.total
    (by simp [gsC1])
    (by
      intro ls hls v hv
      simp only [gsC1, List.mem_cons, List.mem_singleton, List.not_mem_nil, or_false] at hls
      rcases hls with rfl | rfl <;>
        (simp only [List.mem_singleton] at hv; subst hv; rfl))
    (by
      intro ls hls
      simp only [gsC1, List.mem_cons, List.mem_singleton, List.not_mem_nil, or_false] at hls
      rcases hls with rfl | rfl
      · exact ⟨vialRep "a" 5 1, List.mem_singleton_self _, rfl⟩
      · exact ⟨vialRep "b" 7 2, List.mem_singleton_self _, rfl⟩)
  obtain ⟨acts, stdevs, hok, hal, hsl, _⟩ := h
  exact ⟨by simp [gsC1], acts, stdevs, hok, by simpa [gsC1] using hal, by simpa [gsC1] using hsl⟩

/-- C7: `get_cumulative_activity` (on both the single-count and the
repeated-count stream class) fails with the StateError whenever some vial
of some composite sample does not have its background substracted yet, for
every form argument; in particular it fails before any background
subtraction on every stream with a sample, since vials are created with
the flag false. -/
theorem c7_state_error_before_subtraction :
    (∀ (gs : GasStream) (form : Form),
      (∃ ls ∈ gs.samples, ∃ v ∈ ls.samples, v.background_substracted = false) →
        gs.get_cumulative_activity form = .error .stateError) ∧
    (∀ (rgs : RepeatGasStream) (form : Form),
      (∃ ls ∈ rgs.samples, ∃ v ∈ ls.samples, v.background_substracted = false) →
        rgs.get_cumulative_activity form = .error .stateError) := by
  constructor
  · rintro gs form ⟨ls, hls, v, hv, hvb⟩
    have hck : gs.samples.any (fun ls => ls.samples.any (fun v => !v.background_substracted))
        = true :=
      List.any_eq_true.mpr ⟨ls, hls, List.any_eq_true.mpr ⟨v, hv, by simp [hvb]⟩⟩
    rw [GasStream.get_cumulative_activity, hck]
    simp
  · rintro rgs form ⟨ls, hls, v, hv, hvb⟩
    have hck : rgs.samples.any (fun ls => ls.samples.any (fun v => !v.background_substracted))
        = true :=
      List.any_eq_true.mpr ⟨ls, hls, List.any_eq_true.mpr ⟨v, hv, by simp [hvb]⟩⟩
    rw [RepeatGasStream.get_cumulative_activity, hck]
    simp

/-- Witness vial for C7: freshly created, background not substracted. -/
noncomputable def vialC7 : LSCSample :=
  { name := "1L-IV_1-1-1", activity := 5, stdev := 0, repeated := false,
    background_substracted := false, origin_file := none }

/-- Witness repeat vial for C7. -/
noncomputable def repVialC7 : LSCRepeatSample :=
  { name := "1L-IV_1-1-1", counted_activities := [4, 6], rep_number := 2,
    avg_activity := 5, stdev_activity := 1, activity := none,
    background_substracted := false, origin_file := none }

theorem c7_state_error_before_subtraction_witness :
    (GasStream.get_cumulative_activity
        { samples := [{ samples := [vialC7], time := 0 }], start_time := 0, name := none }
        Form.soluble = .error .stateError) ∧
      (RepeatGasStream.get_cumulative_activity
        { samples := [{ samples := [repVialC7], time := 0 }], start_time := 0, name := none }
        Form.total = .error .stateError) :=
  ⟨c7_state_error_before_subtraction.1 _ Form.soluble
      ⟨_, List.mem_singleton_self _, vialC7, List.mem_singleton_self _, rfl⟩,
    c7_state_error_before_subtraction.2 _ Form.total
      ⟨_, List.mem_singleton_self _, repVialC7, List.mem_singleton_self _, rfl⟩⟩

/-- C9: on a stream where at least one composite sample has a repeated
vial while at least one composite sample has none, the stream-wide
repeated branch of `get_cumulative_activity` tries to unpack the bare
activity of the non-repeated composite sample as an (act, stdev) pair and
the call fails with the TypeError instead of returning a series (whatever
the form argument), assuming every background has been substracted so the
state check passes. -/
theorem c9_mixed_repeatedness_fails (gs : GasStream) (form : Form)
    (hbg : ∀ ls ∈ gs.samples, ∀ v ∈ ls.samples, v.background_substracted = true)
    (hsome : ∃ ls ∈ gs.samples, ls.is_repeated = true)
    (hnone : ∃ ls ∈ gs.samples, ls.is_repeated = false) :
    gs.get_cumulative_activity form = .error .typeError := by
  have hck : gs.samples.any (fun ls => ls.samples.any (fun v => !v.background_substracted))
      = false := by
    rw [List.any_eq_false]
    intro ls hls h
    obtain ⟨v, hv, hb⟩ := List.any_eq_true.mp h
    rw [hbg ls hls v hv] at hb
    simp at hb
  have hgsrep : gs.is_repeated = true := by
    obtain ⟨ls, hls, hrep⟩ := hsome
    exact List.any_eq_true.mpr ⟨ls, hls, hrep⟩
  rw [GasStream.get_cumulative_activity, hck]
  simp only [Bool.false_eq_true, if_false, hgsrep, if_true]
  rw [repeatedLoop_bare form gs.samples hnone ([], [])]

/-- Witness non-repeated vial for C9, background substracted. -/
noncomputable def vialSingleC9 : LSCSample :=
  { name := "1L-IV_1-2-1", activity := 3, stdev := 0, repeated := false,
    background_substracted := true, origin_file := none }

/-- Witness stream for C9: one repeated and one non-repeated composite. -/
noncomputable def gsC9 : GasStream :=
  { samples := [{ samples := [vialRep "a" 5 1], time := 0 },
                { samples := [vialSingleC9], time := 1 }],
    start_time := 0, name := none }

theorem c9_mixed_repeatedness_fails_witness :
    gsC9.get_cumulative_activity Form.total = .error .typeError :=
  c9_mixed_repeatedness_fails gsC9 Form.total
    (by
      intro ls hls v hv
      simp only [gsC9, List.mem_cons, List.mem_singleton, List.not_mem_nil, or_false] at hls
      rcases hls with rfl | rfl <;>
        (simp only [List.mem_singleton] at hv; subst hv; rfl))
    ⟨{ samples := [vialRep "a" 5 1], time := 0 }, by simp [gsC9], rfl⟩
    ⟨{ samples := [vialSingleC9], time := 1 }, by simp [gsC9], rfl⟩

/-- C6 (amended): `get_soluble_activity` sums vials[0:2],
`get_insoluble_activity` sums vials[2:], and `get_total_activity` is their
sum; each query returns the (value, quadrature-sum-of-constituent-stdevs)
tuple when any vial of the WHOLE composite is repeated (not merely a
constituent vial of the query), and a bare uncertainty-free value
otherwise. -/
theorem c6_composite_activity_queries (ls : LIBRASample) :
    ls.get_soluble_activity =
      (if ls.is_repeated then
        ActResult.withStdev (((ls.samples.take 2).map (fun v => v.activity)).sum)
          (Real.sqrt (((ls.samples.take 2).map (fun v => v.stdev ^ 2)).sum))
      else
        ActResult.bare (((ls.samples.take 2).map (fun v => v.activity)).sum)) ∧
    ls.get_insoluble_activity =
      (if ls.is_repeated then
        ActResult.withStdev (((ls.samples.drop 2).map (fun v => v.activity)).sum)
          (Real.sqrt (((ls.samples.drop 2).map (fun v => v.stdev ^ 2)).sum))
      else
        ActResult.bare (((ls.samples.drop 2).map (fun v => v.activity)).sum)) ∧
    ls.get_total_activity =
      (if ls.is_repeated then
        ActResult.withStdev
          (((ls.samples.take 2).map (fun v => v.activity)).sum +
            ((ls.samples.drop 2).map (fun v => v.activity)).sum)
          (Real.sqrt ((ls.samples.map (fun v => v.stdev ^ 2)).sum))
      else
        ActResult.bare
          (((ls.samples.take 2).map (fun v => v.activity)).sum +
            ((ls.samples.drop 2).map (fun v => v.activity)).sum)) := by
  have hsum : (ls.samples.map (fun v => v.activity)).sum =
      ((ls.samples.take 2).map (fun v => v.activity)).sum +
        ((ls.samples.drop 2).map (fun v => v.activity)).sum := by
    rw [← List.sum_append, ← List.map_append, List.take_append_drop]
  refine ⟨?_, ?_, ?_⟩
  · rw [LIBRASample.get_soluble_activity, soluble_pair_eq]
  · rw [LIBRASample.get_insoluble_activity, insoluble_pair_eq]
  · rw [LIBRASample.get_total_activity, total_pair_eq, hsum]

/-- Counterexample vials for C6: the two soluble-position vials are
single counts, only the insoluble-position vial is repeated. -/
noncomputable def vialSol0 : LSCSample :=
  { name := "s0", activity := 1, stdev := 0, repeated := false,
    background_substracted := true, origin_file := none }

/-- Second soluble-position single-count vial for the C6 counterexample. -/
noncomputable def vialSol1 : LSCSample :=
  { name := "s1", activity := 2, stdev := 0, repeated := false,
    background_substracted := true, origin_file := none }

/-- Repeated insoluble-position vial for the C6 counterexample. -/
noncomputable def vialIns2 : LSCSample :=
  { name := "s2", activity := 3, stdev := 1, repeated := true,
    background_substracted := true, origin_file := none }

/-- Composite for the C6 counterexample. -/
noncomputable def cexC6 : LIBRASample :=
  { samples := [vialSol0, vialSol1, vialIns2], time := 0 }

/-- C6 counterexample: no constituent vial of the soluble query (vials
0–1) is repeated, yet `get_soluble_activity` returns the tuple shape, not
the bare value the claim prescribes for that case — the branch keys on the
repeated vial at index 2. -/
theorem c6_counterexample :
    ((cexC6.samples.take 2).any (fun v => v.repeated)) = false ∧
      cexC6.get_soluble_activity = ActResult.withStdev 3 0 := by
  constructor
  · rfl
  · have hrep : cexC6.is_repeated = true := rfl
    rw [LIBRASample.get_soluble_activity, hrep]
    simp only [if_true]
    rw [soluble_pair_eq]
    have h2 : cexC6.samples.take 2 = [vialSol0, vialSol1] := rfl
    rw [h2]
    have ha : (([vialSol0, vialSol1]).map (fun v => v.activity)).sum = (3 : ℝ) := by
      simp [vialSol0, vialSol1]
      norm_num
    have hs : (([vialSol0, vialSol1]).map (fun v => v.stdev ^ 2)).sum = (0 : ℝ) := by
      simp [vialSol0, vialSol1]
    rw [ha, hs, Real.sqrt_zero]

/-- A first `substract_background` on an unsubstracted sample raises
nothing and leaves the flag set — shared by the idempotence-guard and
atomicity analyses. -/
theorem substract_background_fresh (s b : LSCSample)
    (h : s.background_substracted = false) :
    (s.substract_background b).err = none ∧
      (s.substract_background b).state.background_substracted = true := by
  rw [LSCSample.substract_background]
  simp only [h, Bool.false_eq_true, if_false]
  by_cases hneg : s.activity - b.activity < 0 <;> simp [hneg]

/-- A second `substract_background` raises the StateError before touching
any field: the returned state is the receiver itself. -/
theorem substract_background_already (s b : LSCSample)
    (h : s.background_substracted = true) :
    s.substract_background b = { err := some Err.stateError, state := s, warns := [] } := by
  rw [LSCSample.substract_background]
  simp [h]

/-- Repeat-class analogue of `substract_background_fresh`. -/
theorem repeat_substract_background_fresh (s b : LSCRepeatSample)
    (h : s.background_substracted = false) :
    (s.substract_background b).err = none ∧
      (s.substract_background b).state.background_substracted = true := by
  rw [LSCRepeatSample.substract_background]
  simp only [h, Bool.false_eq_true, if_false]
  by_cases hneg : s.avg_activity - b.avg_activity < 0 <;> simp [hneg]

/-- Repeat-class analogue of `substract_background_already`. -/
theorem repeat_substract_background_already (s b : LSCRepeatSample)
    (h : s.background_substracted = true) :
    s.substract_background b = { err := some Err.stateError, state := s, warns := [] } := by
  rw [LSCRepeatSample.substract_background]
  simp [h]

/-- C4: on a sample whose background has not been substracted yet, a first
`substract_background` succeeds (no error) and a second invocation fails
with the StateError while returning the state produced by the first call
unchanged (the guard raises before any field is written) — for both the
single-count and the repeated-count sample class. -/
theorem c4_second_subtraction_state_error :
    (∀ (s b b2 : LSCSample), s.background_substracted = false →
      (s.substract_background b).err = none ∧
        (s.substract_background b).state.substract_background b2 =
          { err := some Err.stateError,
            state := (s.substract_background b).state, warns := [] }) ∧
    (∀ (s b b2 : LSCRepeatSample), s.background_substracted = false →
      (s.substract_background b).err = none ∧
        (s.substract_background b).state.substract_background b2 =
          { err := some Err.stateError,
            state := (s.substract_background b).state, warns := [] }) := by
  constructor
  · intro s b b2 h
    obtain ⟨herr, hflag⟩ := substract_background_fresh s b h
    exact ⟨herr, substract_background_already _ b2 hflag⟩
  · intro s b b2 h
    obtain ⟨herr, hflag⟩ := repeat_substract_background_fresh s b h
    exact ⟨herr, repeat_substract_background_already _ b2 hflag⟩

/-- Witness background vial for C4. -/
noncomputable def bgC4 : LSCSample :=
  { name := "1L-BL-1", activity := 1, stdev := 0, repeated := false,
    background_substracted := false, origin_file := none }

/-- Witness repeat background for C4. -/
noncomputable def bgRepC4 : LSCRepeatSample :=
  { name := "1L-BL-1", counted_activities := [1, 1], rep_number := 2,
    avg_activity := 1, stdev_activity := 0, activity := none,
    background_substracted := false, origin_file := none }

theorem c4_second_subtraction_state_error_witness :
    ((vialC7.substract_background bgC4).err = none ∧
      (vialC7.substract_background bgC4).state.substract_background bgC4 =
        { err := some Err.stateError,
          state := (vialC7.substract_background bgC4).state, warns := [] }) ∧
    ((repVialC7.substract_background bgRepC4).err = none ∧
      (repVialC7.substract_background bgRepC4).state.substract_background bgRepC4 =
        { err := some Err.stateError,
          state := (repVialC7.substract_background bgRepC4).state, warns := [] }) :=
  ⟨c4_second_subtraction_state_error.1 vialC7 bgC4 bgC4 rfl,
    c4_second_subtraction_state_error.2 repVialC7 bgRepC4 bgRepC4 rfl⟩

/-- The vial loop on `pre ++ v :: post` where every vial of `pre` is
fresh and `v` already has its background substracted: the error from `v`
escapes, the vials of `pre` keep their mutation, `v` and everything after
it are untouched. -/
theorem vialLoop_first_already (bg : LSCSample) (v : LSCSample)
    (hv : v.background_substracted = true) :
    ∀ (pre : List LSCSample), (∀ u ∈ pre, u.background_substracted = false) →
      ∀ post, vialLoop bg (pre ++ v :: post) =
        { err := some Err.stateError,
          state := pre.map (fun u => (u.substract_background bg).state) ++ v :: post,
          warns := (pre.map (fun u => (u.substract_background bg).warns)).flatten } := by
  intro pre
  induction pre with
  | nil =>
    intro _ post
    rw [List.nil_append, vialLoop, substract_background_already v bg hv]
    simp
  | cons u pre ih =>
    intro hpre post
    have hu : u.background_substracted = false := hpre u (List.mem_cons_self _ _)
    have hrest : ∀ w ∈ pre, w.background_substracted = false :=
      fun w hw => hpre w (List.mem_cons_of_mem _ hw)
    rw [List.cons_append, vialLoop]
    obtain ⟨herr, _⟩ := substract_background_fresh u bg hu
    rw [show ((u.substract_background bg).err) = none from herr] at *
    simp only [herr]
    rw [ih hrest post]
    simp

/-- C10: composite-level background subtraction is not atomic on error.
If the vial at index `pre.length` is the first whose background was
already substracted, the composite call raises that vial's StateError,
every earlier vial has been mutated by its own subtraction, and the
failing vial and every later vial are unchanged. -/
theorem c10_composite_subtract_not_atomic (bg : LSCSample)
    (pre post : List LSCSample) (v : LSCSample) (t : ℕ)
    (hpre : ∀ u ∈ pre, u.background_substracted = false)
    (hv : v.background_substracted = true) :
    LIBRASample.substract_background { samples := pre ++ v :: post, time := t } bg =
      { err := some Err.stateError,
        state := { samples := pre.map (fun u => (u.substract_background bg).state) ++ v :: post, time := t },
        warns := (pre.map (fun u => (u.substract_background bg).warns)).flatten } := by
  rw [LIBRASample.substract_background]
  rw [vialLoop_first_already bg v hv pre hpre post]

theorem c10_composite_subtract_not_atomic_witness :
    LIBRASample.substract_background
        { samples := [vialC7, vialRep "a" 5 1, vialSingleC9], time := 0 } bgC4 =
      { err := some Err.stateError,
        state := { samples := [(vialC7.substract_background bgC4).state, vialRep "a" 5 1, vialSingleC9], time := 0 },
        warns := (vialC7.substract_background bgC4).warns } := by
  have h := c10_composite_subtract_not_atomic bgC4 [vialC7] [vialSingleC9]
    (vialRep "a" 5 1) 0
    (by intro u hu; simp only [List.mem_singleton] at hu; subst hu; rfl)
    rfl
  simpa using h

/-- C2 failing input: repeated-count sample with mean activity 5 Bq and
stdev 1 Bq. -/
noncomputable def c2Sample : LSCRepeatSample :=
  { name := "s", counted_activities := [4, 5, 6], rep_number := 3,
    avg_activity := 5, stdev_activity := 1, activity := none,
    background_substracted := false, origin_file := none }

/-- C2 failing input: repeated-count background with mean 8 Bq, stdev 2 Bq. -/
noncomputable def c2Background : LSCRepeatSample :=
  { name := "bg", counted_activities := [6, 8, 10], rep_number := 3,
    avg_activity := 8, stdev_activity := 2, activity := none,
    background_substracted := false, origin_file := none }

/-- C2 (code evaluated at the failing input): on the repeated-count path,
subtracting a background (8 Bq) larger than the sample activity (5 Bq)
records the warning and propagates the uncertainty in quadrature as the
claim says, but the sample's stored activity `avg_activity` is NOT
clipped: it remains -3 Bq, because the clip branch assigns the unrelated
`activity` attribute (a slip for `avg_activity`, contradicting the
warning text "Setting to zero"). -/
theorem c2_repeat_clip_bug :
    (c2Sample.substract_background c2Background).err = none ∧
      (c2Sample.substract_background c2Background).warns = [negWarn "s"] ∧
      (c2Sample.substract_background c2Background).state.avg_activity = -3 ∧
      (c2Sample.substract_background c2Background).state.activity = some 0 ∧
      (c2Sample.substract_background c2Background).state.stdev_activity =
        Real.sqrt (1 ^ 2 + 2 ^ 2) := by
  have hneg : (5 : ℝ) - 8 < 0 := by norm_num
  rw [LSCRepeatSample.substract_background]
  simp only [c2Sample, c2Background, Bool.false_eq_true, if_false, hneg, if_true,
    stdev_addition_pair]
  norm_num

/-- C5: a sample built from more than one count gets the arithmetic mean
as activity, the Bessel-corrected (divide by n-1) sample standard
deviation as uncertainty and `repeated = true`; a sample built from a
single count gets uncertainty 0 and `repeated = false`.  The same
statistics hold for the repeat-class constructor. -/
theorem c5_sample_statistics (name : String) (counts : List ℝ) :
    (1 < counts.length →
      (LSCSample.init counts name).activity = counts.sum / counts.length ∧
      (LSCSample.init counts name).stdev =
        Real.sqrt ((counts.map (fun x => (x - counts.sum / counts.length) ^ 2)).sum /
          ((counts.length : ℝ) - 1)) ∧
      (LSCSample.init counts name).repeated = true ∧
      (LSCRepeatSample.ofCounts name counts).avg_activity = counts.sum / counts.length ∧
      (LSCRepeatSample.ofCounts name counts).stdev_activity =
        Real.sqrt ((counts.map (fun x => (x - counts.sum / counts.length) ^ 2)).sum /
          ((counts.length : ℝ) - 1))) ∧
    (counts.length = 1 →
      (LSCSample.init counts name).stdev = 0 ∧
      (LSCSample.init counts name).repeated = false ∧
      (LSCRepeatSample.ofCounts name counts).stdev_activity = 0) := by
  constructor
  · intro h
    rw [LSCSample.init, LSCRepeatSample.ofCounts]
    simp [h, np_mean, np_std_ddof1]
  · intro h
    rw [LSCSample.init, LSCRepeatSample.ofCounts]
    simp [h]

theorem c5_sample_statistics_witness :
    (1 < ([1, 2, 3] : List ℝ).length ∧
      (LSCSample.init [1, 2, 3] "a").repeated = true) ∧
    (([5] : List ℝ).length = 1 ∧
      (LSCSample.init [5] "b").stdev = 0 ∧
      (LSCSample.init [5] "b").repeated = false) :=
  ⟨⟨by norm_num, ((c5_sample_statistics "a" [1, 2, 3]).1 (by norm_num)).2.2.1⟩,
    ⟨rfl, ((c5_sample_statistics "b" [5]).2 rfl).1,
      ((c5_sample_statistics "b" [5]).2 rfl).2.1⟩⟩

/-- C8: the default label grammar parses `"1L-IV_2-1-3"` into exactly the
five documented fields, and every label whose token counts deviate from
the grammar (4 hyphen-separated parts, 2 underscore-separated parts),
such as `"bad-label"`, fails with the FormatError and yields no partial
parse. -/
theorem c8_label_grammar :
    extract_info_from_label "1L-IV_2-1-3" =
      .ok { volume := "1L", stream := "IV", run_nb := "2",
            sample_nb := "1", vial_nb := "3" } ∧
    (∀ label : String,
      (pySplit '-' label).length ≠ 4 ∨ (pySplit '_' label).length ≠ 2 →
        extract_info_from_label label = .error .formatError) ∧
    extract_info_from_label "bad-label" = .error .formatError := by
  refine ⟨rfl, ?_, rfl⟩
  intro label h
  rw [extract_info_from_label, if_neg (by tauto)]

theorem c8_label_grammar_witness :
    ((pySplit '-' "bad-label").length ≠ 4 ∨ (pySplit '_' "bad-label").length ≠ 2) ∧
      extract_info_from_label "bad-label" = .error .formatError :=
  ⟨by decide, c8_label_grammar.2.1 "bad-label" (by decide)⟩

/-- Does the sample's label parse with stream field "IV"? -/
def isIV (s : LSCSample) : Bool :=
  match extract_info_from_label s.name with
  | .ok i => i.stream == "IV"
  | .error _ => false

/-- Does the sample's label parse with stream field "OV"? -/
def isOV (s : LSCSample) : Bool :=
  match extract_info_from_label s.name with
  | .ok i => i.stream == "OV"
  | .error _ => false

/-- Total version of the label parse (dummy fields on parse failure; only
evaluated on samples proven to parse). -/
def pInfo (s : LSCSample) : LabelInfo :=
  match extract_info_from_label s.name with
  | .ok i => i
  | .error _ =>
    { volume := "", stream := "", run_nb := "", sample_nb := "", vial_nb := "" }

theorem isIV_true_iff (s : LSCSample) :
    isIV s = true ↔
      ∃ i, extract_info_from_label s.name = .ok i ∧ i.stream = "IV" := by
  cases h : extract_info_from_label s.name with
  | ok i => simp [isIV, h]
  | error e => simp [isIV, h]

theorem isOV_true_iff (s : LSCSample) :
    isOV s = true ↔
      ∃ i, extract_info_from_label s.name = .ok i ∧ i.stream = "OV" := by
  cases h : extract_info_from_label s.name with
  | ok i => simp [isOV, h]
  | error e => simp [isOV, h]

theorem pInfo_eq (s : LSCSample) (i : LabelInfo)
    (h : extract_info_from_label s.name = .ok i) : pInfo s = i := by
  simp [pInfo, h]

/-- When every label parses with stream IV or OV, the partition loop of
`create_gas_streams` returns the IV-filtered and OV-filtered sublists
appended to the running accumulators. -/
theorem partitionGo_filter (samples : List LSCSample)
    (hparse : ∀ s ∈ samples, ∃ i, extract_info_from_label s.name = .ok i ∧
      (i.stream = "IV" ∨ i.stream = "OV")) :
    ∀ acc : List LSCSample × List LSCSample,
      partitionGo acc samples
        = .ok (acc.1 ++ samples.filter isIV, acc.2 ++ samples.filter isOV) := by
  induction samples with
  | nil => intro acc; simp [partitionGo]
  | cons s rest ih =>
    intro acc
    obtain ⟨i, hok, hior⟩ := hparse s (List.mem_cons_self _ _)
    have hrest : ∀ t ∈ rest, ∃ i, extract_info_from_label t.name = .ok i ∧
        (i.stream = "IV" ∨ i.stream = "OV") :=
      fun t ht => hparse t (List.mem_cons_of_mem _ ht)
    rw [partitionGo]
    simp only [hok]
    rcases hior with hiv | hov
    · have hIV : isIV s = true := isIV_true_iff s |>.mpr ⟨i, hok, hiv⟩
      have hOV : isOV s = false := by
        rcases hb : isOV s with _ | _
        · rfl
        · obtain ⟨i', hok', hov'⟩ := (isOV_true_iff s).mp hb
          rw [hok] at hok'
          injection hok' with hii
          subst hii
          rw [hiv] at hov'
          exact absurd hov' (by decide)
      rw [if_pos hiv, ih hrest]
      simp [List.filter_cons, hIV, hOV]
    · have hIV : isIV s = false := by
        rcases hb : isIV s with _ | _
        · rfl
        · obtain ⟨i', hok', hiv'⟩ := (isIV_true_iff s).mp hb
          rw [hok] at hok'
          injection hok' with hii
          subst hii
          rw [hov] at hiv'
          exact absurd hiv' (by decide)
      have hOV : isOV s = true := isOV_true_iff s |>.mpr ⟨i, hok, hov⟩
      have hivneq : ¬ i.stream = "IV" := by
        rw [hov]
        decide
      rw [if_neg hivneq, if_pos hov, ih hrest]
      simp [List.filter_cons, hIV, hOV]

/-- Value of `partitionStreams` under the same hypothesis. -/
theorem partitionStreams_eq (samples : List LSCSample)
    (hparse : ∀ s ∈ samples, ∃ i, extract_info_from_label s.name = .ok i ∧
      (i.stream = "IV" ∨ i.stream = "OV")) :
    partitionStreams samples = .ok (samples.filter isIV, samples.filter isOV) := by
  rw [partitionStreams, partitionGo_filter samples hparse ([], [])]
  simp

/-- When every member's label parses, the run-number collection loop of
`create_gas_streams` succeeds, returning the parsed infos in order. -/
theorem parseAll_ok (l : List LSCSample)
    (h : ∀ s ∈ l, ∃ i, extract_info_from_label s.name = .ok i) :
    parseAll l = .ok (l.map pInfo) := by
  induction l with
  | nil => rfl
  | cons s rest ih =>
    obtain ⟨i, hok⟩ := h s (List.mem_cons_self _ _)
    have hrest := fun t ht => h t (List.mem_cons_of_mem _ ht)
    rw [parseAll, hok, ih hrest, List.map_cons, pInfo_eq s i hok]

/-- Reduction of `>>=` on a successful Except value. -/
theorem exbind_ok {α β : Type} (a : α) (f : α → Except Err β) :
    (Except.ok a >>= f) = f a := rfl

/-- C3 counterexample input: an IV sample of run 1. -/
noncomputable def sIVr1 : LSCSample :=
  { name := "1L-IV_1-1-1", activity := 5, stdev := 0, repeated := false,
    background_substracted := true, origin_file := none }

/-- C3 counterexample input: an OV sample of run 2. -/
noncomputable def sOVr2 : LSCSample :=
  { name := "1L-OV_2-1-1", activity := 7, stdev := 0, repeated := false,
    background_substracted := true, origin_file := none }

/-- C3 counterexample timestamp table: both streams know the key built
from the IV run number. -/
def gdC3 : GeneralData :=
  { lsc_sample_times := fun stream key =>
      if (stream = "IV" ∨ stream = "OV") ∧ key = "1-1-x" then some 0 else none }

/-- C3 counterexample: the two samples carry distinct run numbers ("1" on
the IV sample, "2" on the OV sample), yet `create_gas_streams` does NOT
fail: it returns both streams, because the run-number assertion only
inspects the IV group.  The OV lookup key is even built with the IV run
number. -/
theorem c3_counterexample :
    (extract_info_from_label sIVr1.name).map (fun i => i.run_nb) = .ok "1" ∧
      (extract_info_from_label sOVr2.name).map (fun i => i.run_nb) = .ok "2" ∧
      create_gas_streams [sIVr1, sOVr2] 0 gdC3 =
        .ok ({ samples := [{ samples := [sIVr1], time := 0 }],
                start_time := 0, name := none },
            { samples := [{ samples := [sOVr2], time := 0 }],
                start_time := 0, name := none }) :=
  ⟨rfl, rfl, rfl⟩

/-- C3 (amended): if two samples of the IV stream group carry distinct run
numbers in their labels (and every label parses with stream IV or OV, so
that the partition pass completes), `create_gas_streams` fails with the
ConsistencyError of the run-number assertion before any stream is built;
run numbers of OV-group samples are not checked. -/
theorem c3_run_number_consistency (samples : List LSCSample) (st : ℕ)
    (gd : GeneralData)
    (hparse : ∀ s ∈ samples, ∃ i, extract_info_from_label s.name = .ok i ∧
      (i.stream = "IV" ∨ i.stream = "OV"))
    (s1 s2 : LSCSample) (i1 i2 : LabelInfo)
    (hs1 : s1 ∈ samples) (h1 : extract_info_from_label s1.name = .ok i1)
    (h1iv : i1.stream = "IV")
    (hs2 : s2 ∈ samples) (h2 : extract_info_from_label s2.name = .ok i2)
    (h2iv : i2.stream = "IV")
    (hne : i1.run_nb ≠ i2.run_nb) :
    create_gas_streams samples st gd = .error .consistencyError := by
  have hpart := partitionStreams_eq samples hparse
  have hs1' : s1 ∈ samples.filter isIV :=
    List.mem_filter.mpr ⟨hs1, (isIV_true_iff s1).mpr ⟨i1, h1, h1iv⟩⟩
  have hs2' : s2 ∈ samples.filter isIV :=
    List.mem_filter.mpr ⟨hs2, (isIV_true_iff s2).mpr ⟨i2, h2, h2iv⟩⟩
  obtain ⟨first, rest, hcons⟩ :=
    List.exists_cons_of_ne_nil (List.ne_nil_of_mem hs1')
  have hfirstIV : isIV first = true :=
    (List.mem_filter.mp (by rw [hcons]; exact List.mem_cons_self _ _)).2
  obtain ⟨fi, hfok, _⟩ := (isIV_true_iff first).mp hfirstIV
  have hallparse : ∀ s ∈ samples.filter isIV, ∃ i,
      extract_info_from_label s.name = .ok i := by
    intro s hs
    obtain ⟨i, hoki, _⟩ := (isIV_true_iff s).mp (List.mem_filter.mp hs).2
    exact ⟨i, hoki⟩
  have hmap := parseAll_ok _ hallparse
  have hallfalse : ((samples.filter isIV).map pInfo).all
      (fun i => decide (i.run_nb = fi.run_nb)) = false := by
    rcases hb : ((samples.filter isIV).map pInfo).all
        (fun i => decide (i.run_nb = fi.run_nb)) with _ | _
    · rfl
    · exfalso
      have hall := List.all_eq_true.mp hb
      have e1 : i1.run_nb = fi.run_nb := by
        have := hall (pInfo s1) (List.mem_map_of_mem _ hs1')
        rw [pInfo_eq s1 i1 h1] at this
        exact of_decide_eq_true this
      have e2 : i2.run_nb = fi.run_nb := by
        have := hall (pInfo s2) (List.mem_map_of_mem _ hs2')
        rw [pInfo_eq s2 i2 h2] at this
        exact of_decide_eq_true this
      exact hne (e1.trans e2.symm)
  rw [create_gas_streams, hpart]
  simp only [exbind_ok]
  rw [hcons] at hmap hallfalse ⊢
  simp only [hfok, hmap, exbind_ok, hallfalse, Bool.false_eq_true, if_false]

/-- A second IV sample, of run 2, for the C3 witness. -/
noncomputable def sIVr2 : LSCSample :=
  { name := "1L-IV_2-1-1", activity := 6, stdev := 0, repeated := false,
    background_substracted := true, origin_file := none }

theorem c3_run_number_consistency_witness :
    sIVr1 ∈ [sIVr1, sIVr2] ∧ sIVr2 ∈ [sIVr1, sIVr2] ∧
      create_gas_streams [sIVr1, sIVr2] 0 gdC3 = .error .consistencyError := by
  refine ⟨List.mem_cons_self _ _, by simp, ?_⟩
  refine c3_run_number_consistency [sIVr1, sIVr2] 0 gdC3 ?_
    sIVr1 sIVr2
    { volume := "1L", stream := "IV", run_nb := "1", sample_nb := "1", vial_nb := "1" }
    { volume := "1L", stream := "IV", run_nb := "2", sample_nb := "1", vial_nb := "1" }
    (List.mem_cons_self _ _) rfl rfl (by simp) rfl rfl (by decide)
  intro s hs
  simp only [List.mem_cons, List.mem_singleton, List.not_mem_nil, or_false] at hs
  rcases hs with rfl | rfl
  · exact ⟨_, rfl, Or.inl rfl⟩
  · exact ⟨_, rfl, Or.inl rfl⟩

end Tritium
